import Mathlib

/-!
Verification of the aggregation core of the Student Database Management
System (single-file React app, `src/App.jsx`).

The file embeds the app's aggregation functions shallowly in Lean and
proves the specification claims about them.

Modelling conventions.

CSV rows are parsed by Papa.parse with a header row, so a missing column
yields the JavaScript value `undefined`; every record field is therefore an
`Option String`.  A JavaScript fallback `x || ""` on a string field becomes
`Option.getD x ""` (for strings the two agree: `undefined` and `""` are the
only falsy inputs that occur, and both map to `""`).

JavaScript numbers are modelled as exact rationals (`ℚ`).  The grade
points 4.0, 3.0, 2.0, 1.0, 0.0 and their small sums are exactly
representable IEEE doubles, so only the final division and the
`toFixed(2)` rounding are idealised to exact rational arithmetic.
`+(x).toFixed(2)` is modelled by `round2`: rounding to two decimal places,
ties toward the larger candidate (the ECMAScript `toFixed` rule); on the
non-negative values produced by the GPA calculator this coincides with
round-half-away-from-zero.

The shared global `window.__GRADES_FOR_APP` is mutable ambient state; it
is modelled by explicit state passing (`WindowState`), see below.
-/

/-- Student record, as produced by `loadAll` in `App` (fields
`student_id`, `name`, `major`, `year` copied from the parsed CSV row;
any of them may be absent). -/
structure Student where
  student_id : Option String
  name : Option String
  major : Option String
  year : Option String
deriving DecidableEq, Repr

/-- Grade record (`student_id`, `course_code`, `grade`), from `loadAll`. -/
structure GradeRecord where
  student_id : Option String
  course_code : Option String
  grade : Option String
deriving DecidableEq, Repr

/-- Attendance record (`student_id`, `date`, `attendance_status`),
from `loadAll`. -/
structure AttendanceRecord where
  student_id : Option String
  date : Option String
  attendance_status : Option String
deriving DecidableEq, Repr

/-- ASCII model of upper-casing one character, as
`String.prototype.toUpperCase` acts on the letters occurring in this
dataset. -/
def jsCharUp (c : Char) : Char :=
  if 97 ≤ c.toNat ∧ c.toNat ≤ 122 then Char.ofNat (c.toNat - 32) else c

/-- ASCII model of lower-casing one character, as
`String.prototype.toLowerCase` acts on the letters occurring in this
dataset. -/
def jsCharLow (c : Char) : Char :=
  if 65 ≤ c.toNat ∧ c.toNat ≤ 90 then Char.ofNat (c.toNat + 32) else c

/-- Model of `s.toUpperCase()` (ASCII range). -/
def jsToUpper (s : String) : String := ⟨s.data.map jsCharUp⟩

/-- Model of `s.toLowerCase()` (ASCII range). -/
def jsToLower (s : String) : String := ⟨s.data.map jsCharLow⟩

/-- Model of `s.trim()`: strip leading and trailing whitespace. -/
def jsTrim (s : String) : String :=
  ⟨((s.data.dropWhile Char.isWhitespace).reverse.dropWhile
      Char.isWhitespace).reverse⟩

/-- Whether `p` is a leading subsequence of `h` (character lists). -/
def startsWithList : List Char → List Char → Bool
  | _, [] => true
  | [], _ :: _ => false
  | a :: h, b :: p => a == b && startsWithList h p

/-- Whether `p` occurs contiguously somewhere in `h` (character lists). -/
def containsList : List Char → List Char → Bool
  | [], p => startsWithList [] p
  | h@(_ :: t), p => startsWithList h p || containsList t p

/-- Model of `hay.includes(needle)`: contiguous substring test. -/
def jsIncludes (hay needle : String) : Bool :=
  containsList hay.data needle.data

/-- The fixed grade-to-points table `gradePoints` of `App.jsx` (lines
35-41).  `gradePoints letter = some p` corresponds to the JavaScript test
`letter in gradePoints` succeeding with value `p`; `none` corresponds to
the letter not being a key of the table. -/
def gradePoints (letter : String) : Option ℚ :=
  if letter = "A" then some 4
  else if letter = "B" then some 3
  else if letter = "C" then some 2
  else if letter = "D" then some 1
  else if letter = "F" then some 0
  else none

/-- Model of `+(x).toFixed(2)`: round to two decimal places, ties toward
the larger candidate (ECMAScript `toFixed` picks the larger `n` when two
are equally near).  For `x ≥ 0` this is round-half-away-from-zero. -/
def round2 (x : ℚ) : ℚ := (⌊x * 100 + 1 / 2⌋ : ℚ) / 100

/-- One iteration of the `for (const r of recs)` loop of
`calcGPAForStudent` (lines 63-69): upper-case the grade (missing grade
coalesced to `""` by `r.grade || ""`), and when it is a key of
`gradePoints` add its points to the running total and bump the count. -/
def gpaStep (acc : ℚ × Nat) (r : GradeRecord) : ℚ × Nat :=
  match gradePoints (jsToUpper (r.grade.getD "")) with
  | some p => (acc.1 + p, acc.2 + 1)
  | none => acc

/-- The lookup filter of `calcGPAForStudent` (line 59):
`grades.filter((g) => g.student_id === studentId)`.  An absent
`student_id` compares unequal to any string under `===`. -/
def matchingRecs (studentId : String) (grades : List GradeRecord) :
    List GradeRecord :=
  grades.filter (fun g => decide (g.student_id = some studentId))

/-- The GPA calculator `calcGPAForStudent(studentId, grades)` of
`App.jsx` lines 58-71: filter the records matching `studentId`
(`g.student_id === studentId`; an absent `student_id` compares unequal to
any string), return `null` when none match, accumulate points and count
over recognised letters, return `null` when the count is zero, otherwise
the rounded mean. -/
def calcGPAForStudent (studentId : String) (grades : List GradeRecord) :
    Option ℚ :=
  let recs := matchingRecs studentId grades
  if recs.length = 0 then none
  else
    let acc := recs.foldl gpaStep (0, 0)
    if acc.2 = 0 then none
    else some (round2 (acc.1 / (acc.2 : ℚ)))

/-- The recognised points of a list of grade records, in order: for each
record, the table value of its upper-cased grade letter, skipping
unrecognised letters. -/
def recPoints (recs : List GradeRecord) : List ℚ :=
  recs.filterMap (fun r => gradePoints (jsToUpper (r.grade.getD "")))

/-- The points the specification says contribute to the GPA: for each
record of `grades` matching `studentId`, the fixed-table value of its
case-insensitively matched (upper-cased) grade letter; other records
contribute nothing. -/
def specGpaPoints (sid : String) (grades : List GradeRecord) : List ℚ :=
  grades.filterMap (fun g =>
    if g.student_id = some sid then gradePoints (jsToUpper (g.grade.getD ""))
    else none)

/-- The coalesced major of a student: `s.major || "Undeclared"` (line 76).
Both a missing and an empty `major` are falsy and fall back to the literal
"Undeclared". -/
def majorOf (s : Student) : String :=
  match s.major with
  | none => "Undeclared"
  | some m => if m = "" then "Undeclared" else m

/-- Own-property update of a JavaScript object literal used as a
string-keyed map: assigning an existing key keeps its position, a new key
is appended in insertion order. -/
def objSet (m : List (String × Nat)) (k : String) (v : Nat) :
    List (String × Nat) :=
  match m with
  | [] => [(k, v)]
  | (k', v') :: t => if k' = k then (k, v) :: t else (k', v') :: objSet t k v

/-- Own-property lookup of a JavaScript object literal used as a
string-keyed map. -/
def objGet (m : List (String × Nat)) (k : String) : Option Nat :=
  match m with
  | [] => none
  | (k', v') :: t => if k' = k then some v' else objGet t k

/-- One step of the grouping loop of `calculateEnrollmentByMajor`
(line 77): `map[m] = (map[m] || 0) + 1` (a stored count is never negative,
so `|| 0` agrees with defaulting an absent key to `0`). -/
def bumpMajor (m : List (String × Nat)) (k : String) : List (String × Nat) :=
  objSet m k ((objGet m k).getD 0 + 1)

/-- Whether a character is a decimal digit. -/
def isDigitChar (d : Char) : Bool := decide (48 ≤ d.toNat ∧ d.toNat ≤ 57)

/-- Numeric value of a list of decimal digit characters. -/
def digitsVal (l : List Char) : Nat :=
  l.foldl (fun a c => a * 10 + (c.toNat - 48)) 0

/-- Whether a string is a canonical array-index key in the ECMAScript
object model: the canonical decimal numeral (no leading zeros) of an
integer `0 ≤ n < 2^32 - 1`.  `Object.entries` lists such keys first, in
ascending numeric order, before the other string keys. -/
def isArrayIndexKey (s : String) : Bool :=
  match s.data with
  | [] => false
  | c :: cs =>
    (c :: cs).all isDigitChar && (!(c == '0') || cs.isEmpty) &&
      decide (digitsVal (c :: cs) < 4294967295)

/-- Insertion step of an insertion sort by numeric key value. -/
def insertByVal (p : String × Nat) : List (String × Nat) → List (String × Nat)
  | [] => [p]
  | q :: t =>
    if digitsVal p.1.data ≤ digitsVal q.1.data then p :: q :: t
    else q :: insertByVal p t

/-- Insertion sort by numeric key value (ascending). -/
def sortByVal : List (String × Nat) → List (String × Nat)
  | [] => []
  | p :: t => insertByVal p (sortByVal t)

/-- Model of `Object.entries(map)` for a string-keyed object (line 79):
array-index keys first, in ascending numeric order, then the remaining
keys in insertion order. -/
def objEntries (m : List (String × Nat)) : List (String × Nat) :=
  sortByVal (m.filter (fun p => isArrayIndexKey p.1)) ++
    m.filter (fun p => !isArrayIndexKey p.1)

/-- The aggregator `calculateEnrollmentByMajor(students)` of `App.jsx`
lines 73-80: fold the students into a string-keyed count map under the
coalesced major, then list the map's entries.  The result pairs are the
`{ major, count }` objects of the source. -/
def calculateEnrollmentByMajor (students : List Student) :
    List (String × Nat) :=
  objEntries (students.foldl (fun m s => bumpMajor m (majorOf s)) [])

/-- The coalesced majors of the input students, in input order. -/
def majorsOf (students : List Student) : List String := students.map majorOf

/-- First-occurrence deduplication: every string of the input, once, in
the order in which it first occurs. -/
def firstOccurL (ms : List String) : List String :=
  ms.foldl (fun acc m => if m ∈ acc then acc else acc ++ [m]) []

/-- Number of occurrences of `k` in `ms`. -/
def countOccur (ms : List String) (k : String) : Nat :=
  (ms.filter (fun x => x == k)).length

/-- The grouping described by the specification, on a list of coalesced
majors: one `(major, count)` pair per distinct major, in first-occurrence
order, the count being the number of occurrences. -/
def specGroupMs (ms : List String) : List (String × Nat) :=
  (firstOccurL ms).map (fun k => (k, countOccur ms k))

/-- The enrollment grouping described by the specification: group the
students by coalesced major (missing or empty major becoming
"Undeclared"), in first-occurrence order, each group counting its
students. -/
def specEnrollmentByMajor (students : List Student) : List (String × Nat) :=
  specGroupMs (majorsOf students)

/-- Model of a JavaScript `Set` holding (possibly undefined) student ids:
an insertion-ordered list to which an element is added only if absent. -/
def setAdd (s : List (Option String)) (x : Option String) :
    List (Option String) :=
  if x ∈ s then s else s ++ [x]

/-- Step 1 of the `CourseAttendance` component (lines 354-362): the
`enrolledStudentIds` set, built by iterating grade records and adding the
`student_id` of every record whose `course_code` equals the selected
course code (`===`; an absent code matches no string). -/
def enrolledIdsFor (grades : List GradeRecord) (courseCode : String) :
    List (Option String) :=
  grades.foldl
    (fun s g => if g.course_code = some courseCode then setAdd s g.student_id
      else s) []

/-- The `stats` object of `CourseAttendance` (line 367):
Present/Absent/Other counters. -/
structure AttStats where
  present : Nat
  absent : Nat
  other : Nat
deriving DecidableEq, Repr

/-- Normalised attendance status: `(a.attendance_status || "").trim()`,
case-folded as the comparisons of lines 371-372 do. -/
def normStatus (a : AttendanceRecord) : String :=
  jsToLower (jsTrim (a.attendance_status.getD ""))

/-- One iteration of the tally loop of `CourseAttendance` (lines 368-374):
skip records of non-enrolled students; classify the rest by trimmed,
case-folded status: "present", "absent", anything else → Other. -/
def tallyStep (enrolled : List (Option String)) (st : AttStats)
    (a : AttendanceRecord) : AttStats :=
  if a.student_id ∈ enrolled then
    if normStatus a = "present" then { st with present := st.present + 1 }
    else if normStatus a = "absent" then { st with absent := st.absent + 1 }
    else { st with other := st.other + 1 }
  else st

/-- The full tally loop of `CourseAttendance` over the attendance
records. -/
def tallyAttendance (enrolled : List (Option String))
    (attendance : List AttendanceRecord) : AttStats :=
  attendance.foldl (tallyStep enrolled) ⟨0, 0, 0⟩

/-- Everything the `CourseAttendance` component computes (lines 346-381):
the enrolled-id set, the resolved enrolled students (input order), the
status tally and `total = Present + Absent + Other` (line 376). -/
structure CourseAttendanceView where
  enrolledIds : List (Option String)
  enrolled : List Student
  stats : AttStats
  total : Nat
deriving DecidableEq, Repr

/-- The computation of the `CourseAttendance` component (lines 346-381)
as a function of the grade records it actually reads (its `globalGrades`,
line 359) and of its props `courseCode`, `attendance`, `students`.  The
component has no grade-records prop; the caller decides what
`globalGrades` is (see `getGlobalGrades` and `appWindowState`). -/
def CourseAttendanceOf (globalGrades : List GradeRecord) (courseCode : String)
    (attendance : List AttendanceRecord) (students : List Student) :
    CourseAttendanceView :=
  let ids := enrolledIdsFor globalGrades courseCode
  let stats := tallyAttendance ids attendance
  { enrolledIds := ids
    enrolled := students.filter (fun s => decide (s.student_id ∈ ids))
    stats := stats
    total := stats.present + stats.absent + stats.other }

/-- The hidden slot `window.__internal_grades_for_app` behind the
`__GRADES_FOR_APP` accessor that `exposeGradesGlobally` installs
(lines 432-445): `none` models a never-assigned slot.  This is the only
shared mutable state any aggregator touches, made explicit by state
passing. -/
abbrev WindowState := Option (List GradeRecord)

/-- The getter of `window.__GRADES_FOR_APP` (lines 438-440):
`window.__internal_grades_for_app || []`.  An unassigned slot yields the
empty array; an assigned array (even the empty one, which is truthy) is
returned as is — value-wise exactly `Option.getD`. -/
def getGlobalGrades (w : WindowState) : List GradeRecord := w.getD []

/-- The window slot as the application leaves it for the whole session:
`exposeGradesGlobally` installs the accessor without initialising the
slot, and no statement anywhere in `App.jsx` assigns
`window.__GRADES_FOR_APP` or `window.__internal_grades_for_app` — the
`loadAll` effect of `App` (lines 92-122) only calls the React state
setters.  (The comment at lines 447-448 claims `App` sets the global, but
no such code exists.)  The slot therefore stays unassigned. -/
def appWindowState : WindowState := none

/-- Invocation of the GPA calculator with the window state threaded
explicitly: its body (lines 58-71) neither reads nor writes `window`. -/
def calcGPAForStudentRun (studentId : String) (grades : List GradeRecord)
    (w : WindowState) : Option ℚ × WindowState :=
  (calcGPAForStudent studentId grades, w)

/-- Invocation of the enrollment aggregator with the window state threaded
explicitly: its body (lines 73-80) neither reads nor writes `window`. -/
def calculateEnrollmentByMajorRun (students : List Student)
    (w : WindowState) : List (String × Nat) × WindowState :=
  (calculateEnrollmentByMajor students, w)

/-- Invocation of the `CourseAttendance` computation with the window state
threaded explicitly: its body reads `window.__GRADES_FOR_APP` (line 359)
and writes nothing. -/
def CourseAttendanceRun (courseCode : String)
    (attendance : List AttendanceRecord) (students : List Student)
    (w : WindowState) : CourseAttendanceView × WindowState :=
  (CourseAttendanceOf (getGlobalGrades w) courseCode attendance students, w)

/-- The match test of the search filter (lines 127-129):
`s.student_id.toLowerCase().includes(q) ||
 (s.name || "").toLowerCase().includes(q)`.
Accessing `toLowerCase` on a missing `student_id` throws a `TypeError`,
modelled as `none`; a missing `name` is coalesced to `""` first, so only
the `student_id` access can throw. -/
def studentMatches (q : String) (s : Student) : Option Bool :=
  match s.student_id with
  | none => none
  | some sid =>
    some (jsIncludes (jsToLower sid) q ||
      jsIncludes (jsToLower (s.name.getD "")) q)

/-- `Array.prototype.filter` with a predicate that can throw: the kept
elements in their original order, or `none` as soon as the predicate
throws on any element. -/
def filterOrThrow (p : Student → Option Bool) :
    List Student → Option (List Student)
  | [] => some []
  | s :: t =>
    match p s with
    | none => none
    | some b =>
      match filterOrThrow p t with
      | none => none
      | some r => some (if b then s :: r else r)

/-- The memoised `filteredStudents` of `App` (lines 124-130):
`q = search.trim().toLowerCase()`; a falsy (empty) `q` returns `students`
unchanged before any field is touched; otherwise the students whose id or
name contains `q`, a missing `student_id` making the lookup throw. -/
def filteredStudents (students : List Student) (search : String) :
    Option (List Student) :=
  let q := jsToLower (jsTrim search)
  if q = "" then some students
  else filterOrThrow (studentMatches q) students

/-- Invocation of the search filter with the window state threaded
explicitly: its body (lines 124-130) neither reads nor writes `window`. -/
def filteredStudentsRun (students : List Student) (search : String)
    (w : WindowState) : Option (List Student) × WindowState :=
  (filteredStudents students search, w)

/-- The match predicate in the specification's words: the student's
`student_id` or `name` contains the trimmed query as a case-insensitive
substring (case-insensitivity by lower-casing both sides; a missing field
reads as the empty string). -/
def specMatchStudent (search : String) (s : Student) : Bool :=
  jsIncludes (jsToLower (s.student_id.getD "")) (jsToLower (jsTrim search)) ||
    jsIncludes (jsToLower (s.name.getD "")) (jsToLower (jsTrim search))

theorem foldl_gpaStep (recs : List GradeRecord) (a : ℚ) (n : Nat) :
    recs.foldl gpaStep (a, n) =
      (a + (recPoints recs).sum, n + (recPoints recs).length) := by
  induction recs generalizing a n with
  | nil => simp [recPoints]
  | cons r t ih =>
    simp only [List.foldl_cons, recPoints, List.filterMap_cons]
    cases h : gradePoints (jsToUpper (r.grade.getD "")) with
    | none => simpa [gpaStep, h, recPoints] using ih a n
    | some p =>
      simp only [gpaStep, h, List.sum_cons, List.length_cons]
      rw [ih]
      refine Prod.ext ?_ ?_
      · show a + p + (recPoints t).sum = a + (p + (recPoints t).sum)
        ring
      · show n + 1 + (recPoints t).length = n + ((recPoints t).length + 1)
        omega

theorem calcGPAForStudent_eq (sid : String) (grades : List GradeRecord) :
    calcGPAForStudent sid grades =
      if (recPoints (matchingRecs sid grades)).length = 0 then none
      else some (round2 ((recPoints (matchingRecs sid grades)).sum /
        ((recPoints (matchingRecs sid grades)).length : ℚ))) := by
  unfold calcGPAForStudent
  by_cases h1 : (matchingRecs sid grades).length = 0
  · have : matchingRecs sid grades = [] := List.length_eq_zero.mp h1
    simp [this, recPoints]
  · simp only [h1, if_false, foldl_gpaStep, Nat.zero_add, zero_add]

theorem gradePoints_eq_none_iff (l : String) :
    gradePoints l = none ↔ l ∉ (["A", "B", "C", "D", "F"] : List String) := by
  unfold gradePoints
  split_ifs with h1 h2 h3 h4 h5 <;> simp_all

theorem gradePoints_bounds {l : String} {p : ℚ} (h : gradePoints l = some p) :
    0 ≤ p ∧ p ≤ 4 := by
  unfold gradePoints at h
  split_ifs at h <;> (injection h with h; subst h; norm_num)

theorem specGpaPoints_eq (sid : String) (grades : List GradeRecord) :
    specGpaPoints sid grades = recPoints (matchingRecs sid grades) := by
  induction grades with
  | nil => rfl
  | cons g t ih =>
    by_cases h : g.student_id = some sid
    · simp only [specGpaPoints, recPoints, matchingRecs, List.filterMap_cons,
        List.filter_cons, h, decide_True, if_true, ite_true]
      cases hg : gradePoints (jsToUpper (g.grade.getD "")) with
      | none => simpa [hg] using ih
      | some p => simpa [hg] using ih
    · simp only [specGpaPoints, recPoints, matchingRecs, List.filterMap_cons,
        List.filter_cons, h, decide_False, if_false, ite_false]
      exact ih

/-- Claim C3: `computeGPA(studentId, gradeRecords)` returns `null` if and
only if no record in `gradeRecords` both matches `studentId` and carries a
grade letter that, upper-cased, is one of A/B/C/D/F; in particular it
returns `null` (never 0) for the empty record list. -/
theorem C3_gpa_null_iff (sid : String) (grades : List GradeRecord) :
    (calcGPAForStudent sid grades = none ↔
      ∀ g ∈ grades, ¬(g.student_id = some sid ∧
        jsToUpper (g.grade.getD "") ∈ (["A", "B", "C", "D", "F"] : List String))) ∧
    calcGPAForStudent sid ([] : List GradeRecord) = none := by
  refine ⟨?_, rfl⟩
  rw [calcGPAForStudent_eq]
  have hnone : ((if (recPoints (matchingRecs sid grades)).length = 0 then none
      else some (round2 ((recPoints (matchingRecs sid grades)).sum /
        ((recPoints (matchingRecs sid grades)).length : ℚ)))) = none) ↔
      (recPoints (matchingRecs sid grades)).length = 0 := by
    split_ifs with h <;> simp [h]
  rw [hnone, List.length_eq_zero, recPoints, List.filterMap_eq_nil_iff]
  constructor
  · intro h g hg hc
    have hmem : g ∈ matchingRecs sid grades := by
      simp [matchingRecs, List.mem_filter, hg, hc.1]
    have := h g hmem
    rw [gradePoints_eq_none_iff] at this
    exact this hc.2
  · intro h r hr
    have hr' := List.mem_filter.mp hr
    rw [gradePoints_eq_none_iff]
    intro hmem
    exact h r hr'.1 ⟨of_decide_eq_true hr'.2, hmem⟩

/-- Claim C4: whenever at least one record matching `studentId` carries a
recognised grade letter (matched case-insensitively via upper-casing),
`computeGPA` returns the arithmetic mean of the corresponding fixed-table
points, rounded to two decimal places with round-half-away-from-zero
rounding (`round2`; ties go up, and the mean is non-negative). -/
theorem C4_gpa_mean (sid : String) (grades : List GradeRecord)
    (h : ∃ g ∈ grades, g.student_id = some sid ∧
      jsToUpper (g.grade.getD "") ∈ (["A", "B", "C", "D", "F"] : List String)) :
    calcGPAForStudent sid grades =
      some (round2 ((specGpaPoints sid grades).sum /
        ((specGpaPoints sid grades).length : ℚ))) := by
  rw [calcGPAForStudent_eq, specGpaPoints_eq]
  have hne : (recPoints (matchingRecs sid grades)).length ≠ 0 := by
    obtain ⟨g, hg, hsid, hrec⟩ := h
    have hmem : g ∈ matchingRecs sid grades := by
      simp [matchingRecs, List.mem_filter, hg, hsid]
    intro hlen
    have := (List.filterMap_eq_nil_iff).mp (List.length_eq_zero.mp hlen) g hmem
    rw [gradePoints_eq_none_iff] at this
    exact this hrec
  simp [hne]

theorem round2_nonneg {x : ℚ} (hx : 0 ≤ x) : 0 ≤ round2 x := by
  unfold round2
  apply div_nonneg _ (by norm_num : (0:ℚ) ≤ 100)
  have h : (0:ℤ) ≤ ⌊x * 100 + 1 / 2⌋ := by
    apply Int.le_floor.mpr
    push_cast
    linarith
  exact_mod_cast h

theorem round2_le_four {x : ℚ} (hx : x ≤ 4) : round2 x ≤ 4 := by
  unfold round2
  rw [div_le_iff₀ (by norm_num : (0:ℚ) < 100)]
  have h1 : ⌊x * 100 + 1 / 2⌋ < 401 := by
    apply Int.floor_lt.mpr
    push_cast
    linarith
  have h2 : (⌊x * 100 + 1 / 2⌋ : ℚ) ≤ 400 := by exact_mod_cast Int.lt_add_one_iff.mp h1
  linarith

/-- Claim C9: whenever `computeGPA` returns a non-null value, that value
lies between 0.0 and 4.0 inclusive. -/
theorem C9_gpa_range (sid : String) (grades : List GradeRecord) (v : ℚ)
    (h : calcGPAForStudent sid grades = some v) : 0 ≤ v ∧ v ≤ 4 := by
  rw [calcGPAForStudent_eq] at h
  by_cases hlen : (recPoints (matchingRecs sid grades)).length = 0
  · simp [hlen] at h
  · simp only [hlen, if_false, Option.some.injEq] at h
    subst h
    have hbounds : ∀ p ∈ recPoints (matchingRecs sid grades), 0 ≤ p ∧ p ≤ 4 := by
      intro p hp
      rw [recPoints] at hp
      obtain ⟨r, _, hr⟩ := List.mem_filterMap.mp hp
      exact gradePoints_bounds hr
    have hlpos : (0:ℚ) < ((recPoints (matchingRecs sid grades)).length : ℚ) := by
      exact_mod_cast Nat.pos_of_ne_zero hlen
    have hsum0 : 0 ≤ (recPoints (matchingRecs sid grades)).sum :=
      List.sum_nonneg fun p hp => (hbounds p hp).1
    have hsum4 : (recPoints (matchingRecs sid grades)).sum ≤
        ((recPoints (matchingRecs sid grades)).length : ℚ) * 4 := by
      have := List.sum_le_card_nsmul (recPoints (matchingRecs sid grades)) 4
        fun p hp => (hbounds p hp).2
      simpa [nsmul_eq_mul] using this
    constructor
    · exact round2_nonneg (div_nonneg hsum0 hlpos.le)
    · apply round2_le_four
      rw [div_le_iff₀ hlpos]
      linarith

/-- Witness for C9 at a concrete input: a single grade `A` for student
`S1` produces a value in the range. -/
theorem C9_gpa_range_witness :
    0 ≤ round2 ((recPoints (matchingRecs "S1"
        [⟨some "S1", some "C1", some "A"⟩])).sum /
      ((recPoints (matchingRecs "S1"
        [⟨some "S1", some "C1", some "A"⟩])).length : ℚ)) ∧
    round2 ((recPoints (matchingRecs "S1"
        [⟨some "S1", some "C1", some "A"⟩])).sum /
      ((recPoints (matchingRecs "S1"
        [⟨some "S1", some "C1", some "A"⟩])).length : ℚ)) ≤ 4 :=
  C9_gpa_range "S1" [⟨some "S1", some "C1", some "A"⟩] _
    (by rw [calcGPAForStudent_eq, if_neg (by decide)])

/-- Witness for C4 at the specification's own example: grades `A` and `B`
for student `S1`; the mean of the contributing points is `7/2 = 3.5`. -/
theorem C4_gpa_mean_witness :
    calcGPAForStudent "S1"
        [⟨some "S1", some "C1", some "A"⟩, ⟨some "S1", some "C2", some "B"⟩] =
      some (round2 ((specGpaPoints "S1"
          [⟨some "S1", some "C1", some "A"⟩,
           ⟨some "S1", some "C2", some "B"⟩]).sum /
        ((specGpaPoints "S1"
          [⟨some "S1", some "C1", some "A"⟩,
           ⟨some "S1", some "C2", some "B"⟩]).length : ℚ))) ∧
    round2 ((specGpaPoints "S1"
        [⟨some "S1", some "C1", some "A"⟩,
         ⟨some "S1", some "C2", some "B"⟩]).sum /
      ((specGpaPoints "S1"
        [⟨some "S1", some "C1", some "A"⟩,
         ⟨some "S1", some "C2", some "B"⟩]).length : ℚ)) = 7 / 2 :=
  ⟨C4_gpa_mean "S1" _ (by decide), by
    have h : specGpaPoints "S1"
        [⟨some "S1", some "C1", some "A"⟩, ⟨some "S1", some "C2", some "B"⟩] =
        [4, 3] := by decide
    rw [h]
    norm_num [round2]⟩

theorem mem_foldl_firstOccur (ms : List String) (acc : List String)
    (x : String) :
    (x ∈ ms.foldl (fun acc m => if m ∈ acc then acc else acc ++ [m]) acc) ↔
      x ∈ acc ∨ x ∈ ms := by
  induction ms generalizing acc with
  | nil => simp
  | cons m t ih =>
    simp only [List.foldl_cons, ih, List.mem_cons]
    by_cases h : m ∈ acc
    · simp only [h, if_true]
      constructor
      · rintro (hx | hx)
        · exact Or.inl hx
        · exact Or.inr (Or.inr hx)
      · rintro (hx | hx | hx)
        · exact Or.inl hx
        · exact Or.inl (hx ▸ h)
        · exact Or.inr hx
    · simp only [h, if_false, List.mem_append, List.mem_singleton]
      tauto

theorem nodup_foldl_firstOccur (ms : List String) (acc : List String)
    (hacc : acc.Nodup) :
    (ms.foldl (fun acc m => if m ∈ acc then acc else acc ++ [m]) acc).Nodup := by
  induction ms generalizing acc with
  | nil => simpa
  | cons m t ih =>
    simp only [List.foldl_cons]
    by_cases h : m ∈ acc
    · simpa [h] using ih acc hacc
    · refine ih _ ?_
      simp only [h, if_false]
      simpa [List.nodup_append] using ⟨hacc, h⟩

theorem firstOccurL_nodup (ms : List String) : (firstOccurL ms).Nodup :=
  nodup_foldl_firstOccur ms [] List.nodup_nil

theorem mem_firstOccurL (ms : List String) (x : String) :
    x ∈ firstOccurL ms ↔ x ∈ ms := by
  unfold firstOccurL
  rw [mem_foldl_firstOccur]
  simp

theorem firstOccurL_append_single (ms : List String) (k : String) :
    firstOccurL (ms ++ [k]) =
      if k ∈ ms then firstOccurL ms else firstOccurL ms ++ [k] := by
  unfold firstOccurL
  rw [List.foldl_append]
  simp only [List.foldl_cons, List.foldl_nil]
  by_cases hk : k ∈ ms
  · have hm : k ∈ List.foldl (fun acc m => if m ∈ acc then acc else acc ++ [m]) [] ms :=
      (mem_foldl_firstOccur ms [] k).mpr (Or.inr hk)
    simp [hm, hk]
  · have hm : k ∉ List.foldl (fun acc m => if m ∈ acc then acc else acc ++ [m]) [] ms := by
      intro hc
      exact hk (((mem_foldl_firstOccur ms [] k).mp hc).resolve_left (by simp))
    simp [hm, hk]

theorem countOccur_append_self (ms : List String) (k : String) :
    countOccur (ms ++ [k]) k = countOccur ms k + 1 := by
  unfold countOccur
  simp

theorem countOccur_append_ne (ms : List String) (k k' : String) (h : k' ≠ k) :
    countOccur (ms ++ [k]) k' = countOccur ms k' := by
  unfold countOccur
  rw [List.filter_append]
  simp [show (k == k') = false from beq_eq_false_iff_ne.mpr (Ne.symm h)]

theorem objGet_map (keys : List String) (f : String → Nat) (k : String) :
    objGet (keys.map (fun x => (x, f x))) k =
      if k ∈ keys then some (f k) else none := by
  induction keys with
  | nil => simp [objGet]
  | cons k0 t ih =>
    simp only [List.map_cons, objGet]
    by_cases h : k0 = k
    · subst h
      simp
    · simp only [h, if_false, ih, List.mem_cons]
      by_cases hk : k ∈ t
      · simp [hk]
      · simp only [hk, if_false, or_false]
        rw [if_neg (fun e : k = k0 => h e.symm)]

theorem objSet_map_of_notMem (keys : List String) (f : String → Nat)
    (k : String) (v : Nat) (h : k ∉ keys) :
    objSet (keys.map (fun x => (x, f x))) k v =
      keys.map (fun x => (x, f x)) ++ [(k, v)] := by
  induction keys with
  | nil => simp [objSet]
  | cons k0 t ih =>
    have h0 : k0 ≠ k := fun e => h (e ▸ List.mem_cons_self k0 t)
    have ht : k ∉ t := fun hc => h (List.mem_cons_of_mem k0 hc)
    simp only [List.map_cons, objSet, h0, if_false, List.cons_append,
      List.cons.injEq, true_and]
    exact ih ht

theorem objSet_map_of_mem (keys : List String) (f : String → Nat)
    (k : String) (v : Nat) (hnd : keys.Nodup) (h : k ∈ keys) :
    objSet (keys.map (fun x => (x, f x))) k v =
      keys.map (fun x => (x, if x = k then v else f x)) := by
  induction keys with
  | nil => simp at h
  | cons k0 t ih =>
    rcases List.mem_cons.mp h with h0 | ht
    · subst h0
      have hkt : k ∉ t := (List.nodup_cons.mp hnd).1
      simp only [List.map_cons, objSet, if_pos rfl, ite_true,
        List.cons.injEq, true_and]
      refine (List.map_congr_left ?_).symm
      intro x hx
      have : x ≠ k := fun e => hkt (e ▸ hx)
      simp [this]
    · have h0 : k0 ≠ k := by
        rintro rfl
        exact (List.nodup_cons.mp hnd).1 ht
      simp only [List.map_cons, objSet, h0, if_false, ite_false,
        List.cons.injEq, true_and]
      exact ih (List.nodup_cons.mp hnd).2 ht

theorem countOccur_eq_zero (ms : List String) (k : String) (h : k ∉ ms) :
    countOccur ms k = 0 := by
  unfold countOccur
  rw [List.length_eq_zero, List.filter_eq_nil_iff]
  intro x hx
  simp only [beq_iff_eq]
  rintro rfl
  exact h hx

theorem specGroupMs_append (ms : List String) (k : String) :
    specGroupMs (ms ++ [k]) = bumpMajor (specGroupMs ms) k := by
  unfold specGroupMs bumpMajor
  by_cases hk : k ∈ ms
  · have hk' : k ∈ firstOccurL ms := (mem_firstOccurL ms k).mpr hk
    rw [firstOccurL_append_single, if_pos hk,
      objGet_map (firstOccurL ms) (countOccur ms) k, if_pos hk',
      Option.getD_some,
      objSet_map_of_mem (firstOccurL ms) (countOccur ms) k _
        (firstOccurL_nodup ms) hk']
    refine List.map_congr_left ?_
    intro x hx
    by_cases hxk : x = k
    · subst hxk
      simp [countOccur_append_self]
    · simp [hxk, countOccur_append_ne ms k x hxk]
  · have hk' : k ∉ firstOccurL ms := fun hc => hk ((mem_firstOccurL ms k).mp hc)
    rw [firstOccurL_append_single, if_neg hk,
      objGet_map (firstOccurL ms) (countOccur ms) k, if_neg hk',
      Option.getD_none,
      objSet_map_of_notMem (firstOccurL ms) (countOccur ms) k _ hk',
      List.map_append]
    congr 1
    · refine List.map_congr_left ?_
      intro x hx
      have hxk : x ≠ k := fun e =>
        hk' (e ▸ hx)
      simp [countOccur_append_ne ms k x hxk]
    · simp [countOccur_append_self, countOccur_eq_zero ms k hk]

theorem foldl_bumpMajor_eq (ms : List String) :
    ms.foldl bumpMajor [] = specGroupMs ms := by
  induction ms using List.reverseRecOn with
  | nil => rfl
  | append_singleton t k ih =>
    rw [List.foldl_append, List.foldl_cons, List.foldl_nil, ih,
      specGroupMs_append]

theorem objEntries_of_no_index (m : List (String × Nat))
    (h : ∀ p ∈ m, isArrayIndexKey p.1 = false) : objEntries m = m := by
  unfold objEntries
  have h1 : m.filter (fun p => isArrayIndexKey p.1) = [] := by
    rw [List.filter_eq_nil_iff]
    intro p hp
    simp [h p hp]
  have h2 : m.filter (fun p => !isArrayIndexKey p.1) = m := by
    rw [List.filter_eq_self]
    intro p hp
    simp [h p hp]
  rw [h1, h2]
  rfl

theorem calculateEnrollmentByMajor_eq (students : List Student) :
    calculateEnrollmentByMajor students =
      objEntries (specEnrollmentByMajor students) := by
  unfold calculateEnrollmentByMajor specEnrollmentByMajor majorsOf
  rw [← List.foldl_map majorOf bumpMajor students [], foldl_bumpMajor_eq]

/-- Claim C5 (amended): provided no coalesced major is a canonical
array-index string (such as "1"; JavaScript objects list integer-like keys
first, in ascending numeric order, so such majors would be reordered),
`calculateEnrollmentByMajor` groups the students by major, coalescing a
missing or empty major into the literal "Undeclared", each group counting
its students, and lists the groups in insertion order of each major's
first occurrence in the input. -/
theorem C5_enrollment_grouping (students : List Student)
    (h : ∀ s ∈ students, isArrayIndexKey (majorOf s) = false) :
    calculateEnrollmentByMajor students = specEnrollmentByMajor students := by
  rw [calculateEnrollmentByMajor_eq]
  apply objEntries_of_no_index
  intro p hp
  unfold specEnrollmentByMajor specGroupMs at hp
  obtain ⟨k, hk, rfl⟩ := List.mem_map.mp hp
  have hk' : k ∈ majorsOf students := (mem_firstOccurL _ _).mp hk
  obtain ⟨s, hs, rfl⟩ := List.mem_map.mp hk'
  exact h s hs

/-- Witness for C5 at the specification's example: majors "CS", "CS", ""
group to `[("CS", 2), ("Undeclared", 1)]` in first-seen order. -/
theorem C5_enrollment_grouping_witness :
    calculateEnrollmentByMajor
        [⟨some "s1", none, some "CS", none⟩, ⟨some "s2", none, some "CS", none⟩,
         ⟨some "s3", none, some "", none⟩] =
      specEnrollmentByMajor
        [⟨some "s1", none, some "CS", none⟩, ⟨some "s2", none, some "CS", none⟩,
         ⟨some "s3", none, some "", none⟩] ∧
    specEnrollmentByMajor
        [⟨some "s1", none, some "CS", none⟩, ⟨some "s2", none, some "CS", none⟩,
         ⟨some "s3", none, some "", none⟩] = [("CS", 2), ("Undeclared", 1)] :=
  ⟨C5_enrollment_grouping _ (by decide), by decide⟩

/-- Counterexample to claim C5 as frozen: with majors "2" then "1" the
code's output lists "1" before "2" (JavaScript objects order integer-like
keys numerically), not in insertion order of first occurrence as the claim
requires for every input. -/
theorem C5_counterexample :
    calculateEnrollmentByMajor
        [⟨some "s1", none, some "2", none⟩, ⟨some "s2", none, some "1", none⟩] =
      [("1", 1), ("2", 1)] ∧
    specEnrollmentByMajor
        [⟨some "s1", none, some "2", none⟩, ⟨some "s2", none, some "1", none⟩] =
      [("2", 1), ("1", 1)] ∧
    calculateEnrollmentByMajor
        [⟨some "s1", none, some "2", none⟩, ⟨some "s2", none, some "1", none⟩] ≠
      specEnrollmentByMajor
        [⟨some "s1", none, some "2", none⟩, ⟨some "s2", none, some "1", none⟩] :=
  ⟨by decide, by decide, by decide⟩

theorem mem_setAdd (s : List (Option String)) (x y : Option String) :
    y ∈ setAdd s x ↔ y ∈ s ∨ y = x := by
  unfold setAdd
  by_cases h : x ∈ s
  · rw [if_pos h]
    constructor
    · exact Or.inl
    · rintro (hy | rfl)
      · exact hy
      · exact h
  · rw [if_neg h]
    simp

theorem mem_foldl_enrolled (grades : List GradeRecord) (c : String)
    (acc : List (Option String)) (x : Option String) :
    (x ∈ grades.foldl
        (fun s g => if g.course_code = some c then setAdd s g.student_id
          else s) acc) ↔
      x ∈ acc ∨ ∃ g ∈ grades, g.course_code = some c ∧ g.student_id = x := by
  induction grades generalizing acc with
  | nil => simp
  | cons g t ih =>
    simp only [List.foldl_cons]
    by_cases h : g.course_code = some c
    · rw [if_pos h, ih, mem_setAdd]
      constructor
      · rintro ((hx | rfl) | hx)
        · exact Or.inl hx
        · exact Or.inr ⟨g, List.mem_cons_self g t, h, rfl⟩
        · obtain ⟨g', hg', hc, hs⟩ := hx
          exact Or.inr ⟨g', List.mem_cons_of_mem g hg', hc, hs⟩
      · rintro (hx | ⟨g', hg', hc, hs⟩)
        · exact Or.inl (Or.inl hx)
        · rcases List.mem_cons.mp hg' with rfl | hg'
          · exact Or.inl (Or.inr hs.symm)
          · exact Or.inr ⟨g', hg', hc, hs⟩
    · rw [if_neg h, ih]
      constructor
      · rintro (hx | ⟨g', hg', hc, hs⟩)
        · exact Or.inl hx
        · exact Or.inr ⟨g', List.mem_cons_of_mem g hg', hc, hs⟩
      · rintro (hx | ⟨g', hg', hc, hs⟩)
        · exact Or.inl hx
        · rcases List.mem_cons.mp hg' with rfl | hg'
          · exact absurd hc h
          · exact Or.inr ⟨g', hg', hc, hs⟩

theorem mem_enrolledIdsFor (grades : List GradeRecord) (c : String)
    (x : Option String) :
    x ∈ enrolledIdsFor grades c ↔
      ∃ g ∈ grades, g.course_code = some c ∧ g.student_id = x := by
  unfold enrolledIdsFor
  rw [mem_foldl_enrolled]
  simp

/-- Claim C1 (amended): the `CourseAttendance` component builds its
enrolled set from the grade records it reads off the ambient
`__GRADES_FOR_APP` global — for every window state, an id is in the set
iff some globally read record with the selected course code carries it —
and not from a directly passed `gradeRecords` argument: the component has
no such argument, so the app's grade list never reaches it. -/
theorem C1_enrolled_from_global (w : WindowState) (courseCode : String)
    (attendance : List AttendanceRecord) (students : List Student)
    (x : Option String) :
    (x ∈ (CourseAttendanceOf (getGlobalGrades w) courseCode attendance
        students).enrolledIds) ↔
      ∃ g ∈ getGlobalGrades w, g.course_code = some courseCode ∧
        g.student_id = x :=
  mem_enrolledIdsFor (getGlobalGrades w) courseCode x

/-- Counterexample to claim C1 as frozen, at the concrete input
`courseCode = "C1"`, `gradeRecords = [{S1, C1, A}]`, empty attendance and
students, and the window state the application actually produces: the
claim requires the enrolled set derived from the `gradeRecords` argument,
`[some "S1"]`, but the component reads the never-assigned global and
yields the empty set. -/
theorem C1_counterexample :
    enrolledIdsFor [⟨some "S1", some "C1", some "A"⟩] "C1" = [some "S1"] ∧
    (CourseAttendanceOf (getGlobalGrades appWindowState) "C1" []
        []).enrolledIds = [] ∧
    (CourseAttendanceOf (getGlobalGrades appWindowState) "C1" []
        []).enrolledIds ≠
      enrolledIdsFor [⟨some "S1", some "C1", some "A"⟩] "C1" :=
  ⟨by decide, by decide, by decide⟩

theorem foldl_tallyStep (enrolled : List (Option String))
    (attendance : List AttendanceRecord) (st : AttStats) :
    attendance.foldl (tallyStep enrolled) st =
      ⟨st.present + (attendance.filter (fun a =>
          decide (a.student_id ∈ enrolled) &&
            decide (normStatus a = "present"))).length,
       st.absent + (attendance.filter (fun a =>
          decide (a.student_id ∈ enrolled) &&
            decide (normStatus a = "absent"))).length,
       st.other + (attendance.filter (fun a =>
          decide (a.student_id ∈ enrolled) &&
            !decide (normStatus a = "present") &&
            !decide (normStatus a = "absent"))).length⟩ := by
  induction attendance generalizing st with
  | nil => simp
  | cons a t ih =>
    simp only [List.foldl_cons, List.filter_cons]
    by_cases hm : a.student_id ∈ enrolled
    · by_cases hp : normStatus a = "present"
      · have hpa : ¬normStatus a = "absent" := by rw [hp]; decide
        rw [show tallyStep enrolled st a = { st with present := st.present + 1 }
          from by simp [tallyStep, hm, hp], ih]
        simp only [hm, hp, hpa, decide_True, decide_False, Bool.and_true,
          Bool.and_false, Bool.not_true, Bool.not_false, decide_eq_true_eq,
          if_true, if_false, List.length_cons, AttStats.mk.injEq]
        refine ⟨by omega, rfl, rfl⟩
      · by_cases ha : normStatus a = "absent"
        · rw [show tallyStep enrolled st a = { st with absent := st.absent + 1 }
            from by simp [tallyStep, hm, hp, ha], ih]
          simp only [hm, hp, ha, decide_True, decide_False, Bool.and_true,
            Bool.and_false, Bool.not_true, Bool.not_false, decide_eq_true_eq,
            if_true, if_false, List.length_cons, AttStats.mk.injEq]
          refine ⟨rfl, by omega, rfl⟩
        · rw [show tallyStep enrolled st a = { st with other := st.other + 1 }
            from by simp [tallyStep, hm, hp, ha], ih]
          simp only [hm, hp, ha, decide_True, decide_False, Bool.and_true,
            Bool.and_false, Bool.not_true, Bool.not_false, decide_eq_true_eq,
            if_true, if_false, List.length_cons, AttStats.mk.injEq]
          refine ⟨rfl, rfl, by omega⟩
    · rw [show tallyStep enrolled st a = st from by simp [tallyStep, hm], ih]
      simp [hm]

theorem tally_partition (enrolled : List (Option String))
    (attendance : List AttendanceRecord) :
    (attendance.filter (fun a => decide (a.student_id ∈ enrolled) &&
        decide (normStatus a = "present"))).length +
      (attendance.filter (fun a => decide (a.student_id ∈ enrolled) &&
        decide (normStatus a = "absent"))).length +
      (attendance.filter (fun a => decide (a.student_id ∈ enrolled) &&
        !decide (normStatus a = "present") &&
        !decide (normStatus a = "absent"))).length =
      (attendance.filter (fun a => decide (a.student_id ∈ enrolled))).length := by
  induction attendance with
  | nil => rfl
  | cons a t ih =>
    simp only [List.filter_cons]
    by_cases hm : a.student_id ∈ enrolled
    · by_cases hp : normStatus a = "present"
      · have hpa : ¬normStatus a = "absent" := by rw [hp]; decide
        simp [hm, hp, hpa]
        omega
      · by_cases ha : normStatus a = "absent"
        · simp [hm, hp, ha]
          omega
        · simp [hm, hp, ha]
          omega
    · simp [hm]
      omega

theorem tallyAttendance_nil_enrolled (attendance : List AttendanceRecord) :
    tallyAttendance [] attendance = ⟨0, 0, 0⟩ := by
  rw [tallyAttendance, foldl_tallyStep]
  simp

/-- Claim C6: on any enrolled-id set, the tally counts exactly the
attendance records whose `student_id` is in the set, classifying each by
its trimmed, case-folded status ("present" → Present, "absent" → Absent,
anything else → Other); Present + Absent + Other equals the number of
attendance records of enrolled students (the `total` of line 376), a
record of a non-enrolled student never affects any count, and the empty
enrolled set yields all-zero counts for every attendance list. -/
theorem C6_attendance_tally (enrolled : List (Option String))
    (attendance : List AttendanceRecord) :
    (tallyAttendance enrolled attendance).present =
      (attendance.filter (fun a => decide (a.student_id ∈ enrolled) &&
        decide (normStatus a = "present"))).length ∧
    (tallyAttendance enrolled attendance).absent =
      (attendance.filter (fun a => decide (a.student_id ∈ enrolled) &&
        decide (normStatus a = "absent"))).length ∧
    (tallyAttendance enrolled attendance).other =
      (attendance.filter (fun a => decide (a.student_id ∈ enrolled) &&
        !decide (normStatus a = "present") &&
        !decide (normStatus a = "absent"))).length ∧
    (tallyAttendance enrolled attendance).present +
        (tallyAttendance enrolled attendance).absent +
        (tallyAttendance enrolled attendance).other =
      (attendance.filter (fun a =>
        decide (a.student_id ∈ enrolled))).length ∧
    tallyAttendance [] attendance = ⟨0, 0, 0⟩ := by
  have h := foldl_tallyStep enrolled attendance ⟨0, 0, 0⟩
  rw [tallyAttendance, h]
  refine ⟨by simp, by simp, by simp, ?_, tallyAttendance_nil_enrolled attendance⟩
  simpa using tally_partition enrolled attendance

/-- Claim C8: the course-attendance view reads its grade records from the
`__GRADES_FOR_APP` global, whose getter defaults to the empty array; no
code in the application ever assigns that global (`appWindowState`), so
for every course code, attendance and students the computation yields an
empty enrolled set, no enrolled students, and
Present = Absent = Other = total = 0. -/
theorem C8_attendance_all_zero (courseCode : String)
    (attendance : List AttendanceRecord) (students : List Student) :
    getGlobalGrades appWindowState = [] ∧
    (CourseAttendanceOf (getGlobalGrades appWindowState) courseCode
      attendance students).enrolledIds = [] ∧
    (CourseAttendanceOf (getGlobalGrades appWindowState) courseCode
      attendance students).enrolled = [] ∧
    (CourseAttendanceOf (getGlobalGrades appWindowState) courseCode
      attendance students).stats = ⟨0, 0, 0⟩ ∧
    (CourseAttendanceOf (getGlobalGrades appWindowState) courseCode
      attendance students).total = 0 := by
  refine ⟨rfl, rfl, ?_, ?_, ?_⟩
  · show students.filter _ = []
    rw [List.filter_eq_nil_iff]
    intro s _
    simp only [decide_eq_true_eq]
    exact List.not_mem_nil s.student_id
  · exact tallyAttendance_nil_enrolled attendance
  · show (tallyAttendance (enrolledIdsFor (getGlobalGrades appWindowState)
        courseCode) attendance).present + _ + _ = 0
    rw [show enrolledIdsFor (getGlobalGrades appWindowState) courseCode = []
      from rfl, tallyAttendance_nil_enrolled attendance]
    rfl

/-- Counterexample to claim C2 as frozen: `courseAttendance` is not a
deterministic function of its explicit inputs alone — two invocations
with identical explicit inputs (course code, attendance records,
students) but different values of the shared `__GRADES_FOR_APP` slot
produce different outputs. -/
theorem C2_counterexample :
    (CourseAttendanceRun "C1"
        [⟨some "S1", some "2024-01-01", some "Present"⟩] []
        appWindowState).1 ≠
      (CourseAttendanceRun "C1"
        [⟨some "S1", some "2024-01-01", some "Present"⟩] []
        (some [⟨some "S1", some "C1", some "A"⟩])).1 := by decide

/-- Claim C2 (amended): `computeGPA`, `enrollmentByMajor` and
`filterStudents` are pure, deterministic functions of their explicit
inputs: with the shared window state threaded explicitly, their results
are independent of it and they leave it unchanged.  `courseAttendance`
likewise never mutates the shared state and is deterministic, but its
result is a function of its explicit inputs together with the
`__GRADES_FOR_APP` global it reads.  Re-invoking any of the four with
identical inputs, in the state the first call leaves behind, reproduces
the first output. -/
theorem C2_aggregators_pure (sid : String) (grades : List GradeRecord)
    (students : List Student) (search : String) (courseCode : String)
    (attendance : List AttendanceRecord) (w w' : WindowState) :
    ((calcGPAForStudentRun sid grades w).1 =
        (calcGPAForStudentRun sid grades w').1 ∧
      (calcGPAForStudentRun sid grades w).2 = w) ∧
    ((calculateEnrollmentByMajorRun students w).1 =
        (calculateEnrollmentByMajorRun students w').1 ∧
      (calculateEnrollmentByMajorRun students w).2 = w) ∧
    ((filteredStudentsRun students search w).1 =
        (filteredStudentsRun students search w').1 ∧
      (filteredStudentsRun students search w).2 = w) ∧
    ((CourseAttendanceRun courseCode attendance students w).2 = w ∧
      (CourseAttendanceRun courseCode attendance students w).1 =
        CourseAttendanceOf (getGlobalGrades w) courseCode attendance
          students) ∧
    ((CourseAttendanceRun courseCode attendance students
        (CourseAttendanceRun courseCode attendance students w).2).1 =
      (CourseAttendanceRun courseCode attendance students w).1 ∧
      (calcGPAForStudentRun sid grades
        (calcGPAForStudentRun sid grades w).2).1 =
      (calcGPAForStudentRun sid grades w).1 ∧
      (calculateEnrollmentByMajorRun students
        (calculateEnrollmentByMajorRun students w).2).1 =
      (calculateEnrollmentByMajorRun students w).1 ∧
      (filteredStudentsRun students search
        (filteredStudentsRun students search w).2).1 =
      (filteredStudentsRun students search w).1) :=
  ⟨⟨rfl, rfl⟩, ⟨rfl, rfl⟩, ⟨rfl, rfl⟩, ⟨rfl, rfl⟩, rfl, rfl, rfl, rfl⟩

theorem jsToLower_eq_empty (s : String) : jsToLower s = "" ↔ s = "" := by
  cases s with
  | mk l =>
    cases l with
    | nil => simp [jsToLower]
    | cons c cs =>
      constructor
      · intro h
        exact absurd (congrArg String.data h) (by simp [jsToLower])
      · intro h
        exact absurd (congrArg String.data h) (by simp)

theorem studentMatches_isSome (q : String) (s : Student) :
    (studentMatches q s).isSome = s.student_id.isSome := by
  unfold studentMatches
  cases s.student_id <;> rfl

theorem filterOrThrow_isSome (p : Student → Option Bool) (l : List Student) :
    (filterOrThrow p l).isSome ↔ ∀ s ∈ l, (p s).isSome := by
  induction l with
  | nil => simp [filterOrThrow]
  | cons s t ih =>
    cases hp : p s with
    | none =>
      simp only [filterOrThrow, hp, Option.isSome_none]
      constructor
      · intro h
        simp at h
      · intro h
        have hs := h s (List.mem_cons_self s t)
        rw [hp] at hs
        simp at hs
    | some b =>
      cases hf : filterOrThrow p t with
      | none =>
        simp only [filterOrThrow, hp, hf, Option.isSome_none]
        constructor
        · intro h
          simp at h
        · intro h
          have h2 : (filterOrThrow p t).isSome :=
            ih.mpr fun x hx => h x (List.mem_cons_of_mem s hx)
          rw [hf] at h2
          simp at h2
      | some r =>
        simp only [filterOrThrow, hp, hf, Option.isSome_some, true_iff]
        intro x hx
        rcases List.mem_cons.mp hx with rfl | hx
        · rw [hp]
          rfl
        · exact (ih.mp (by rw [hf]; rfl)) x hx

theorem filterOrThrow_eq_filter (p : Student → Option Bool)
    (l : List Student) (h : ∀ s ∈ l, (p s).isSome) :
    filterOrThrow p l = some (l.filter (fun s => (p s).getD false)) := by
  induction l with
  | nil => rfl
  | cons s t ih =>
    have hs := h s (List.mem_cons_self s t)
    cases hp : p s with
    | none =>
      rw [hp] at hs
      simp at hs
    | some b =>
      have ht := ih fun x hx => h x (List.mem_cons_of_mem s hx)
      simp only [filterOrThrow, hp, ht, List.filter_cons]
      cases b <;> simp [hp]

/-- Claim C7: an empty or whitespace-only query returns the full input
unchanged, in the same order; otherwise, on well-formed students (every
`student_id` present), the result is exactly the students whose id or
name contains the trimmed query as a case-insensitive substring, in the
original relative order (a stable filter of the input). -/
theorem C7_filter_query (students : List Student) (search : String) :
    (jsTrim search = "" → filteredStudents students search = some students) ∧
    (jsTrim search ≠ "" → (∀ s ∈ students, s.student_id.isSome) →
      filteredStudents students search =
        some (students.filter (specMatchStudent search))) := by
  constructor
  · intro h
    unfold filteredStudents
    rw [if_pos (by rw [h]; rfl)]
  · intro h hids
    unfold filteredStudents
    rw [if_neg (fun e => h ((jsToLower_eq_empty _).mp e))]
    rw [filterOrThrow_eq_filter _ _
      (fun s hs => by rw [studentMatches_isSome]; exact hids s hs)]
    congr 1
    refine List.filter_congr ?_
    intro s hs
    have := hids s hs
    cases hsid : s.student_id with
    | none => rw [hsid] at this; simp at this
    | some sid =>
      unfold studentMatches specMatchStudent
      rw [hsid]
      rfl

/-- Witness for C7: a whitespace-only query returns the single-student
list unchanged, and the query "AL" selects exactly Alice out of Alice and
Bob via the spec predicate. -/
theorem C7_filter_query_witness :
    filteredStudents [⟨some "S1", some "Alice", none, none⟩] "   " =
      some [⟨some "S1", some "Alice", none, none⟩] ∧
    filteredStudents [⟨some "S1", some "Alice", none, none⟩,
        ⟨some "S2", some "Bob", none, none⟩] "AL" =
      some ([⟨some "S1", some "Alice", none, none⟩,
        ⟨some "S2", some "Bob", none, none⟩].filter
          (specMatchStudent "AL")) ∧
    [⟨some "S1", some "Alice", none, none⟩,
        ⟨some "S2", some "Bob", none, none⟩].filter
      (specMatchStudent "AL") = [⟨some "S1", some "Alice", none, none⟩] :=
  ⟨(C7_filter_query [⟨some "S1", some "Alice", none, none⟩] "   ").1
      (by decide),
   (C7_filter_query [⟨some "S1", some "Alice", none, none⟩,
        ⟨some "S2", some "Bob", none, none⟩] "AL").2 (by decide) (by decide),
   by decide⟩

/-- Claim C10: with a non-empty (post-trim) query the filter evaluates
without throwing precisely when every student's `student_id` is a present
string — a missing `name` alone never makes it throw (it is coalesced to
the empty string), while a missing `student_id` makes the case-folding
lookup throw. -/
theorem C10_filter_totality (students : List Student) (search : String)
    (h : jsTrim search ≠ "") :
    (filteredStudents students search).isSome ↔
      ∀ s ∈ students, s.student_id.isSome := by
  unfold filteredStudents
  rw [if_neg (fun e => h ((jsToLower_eq_empty _).mp e))]
  rw [filterOrThrow_isSome]
  constructor
  · intro hall s hs
    rw [← studentMatches_isSome (jsToLower (jsTrim search)) s]
    exact hall s hs
  · intro hall s hs
    rw [studentMatches_isSome]
    exact hall s hs

/-- Witness for C10: with query "s", a student whose name is missing but
whose id is present is tolerated, and the iff holds concretely. -/
theorem C10_filter_totality_witness :
    (filteredStudents [⟨some "S1", none, none, none⟩] "s").isSome ↔
      ∀ s ∈ [Student.mk (some "S1") none none none], s.student_id.isSome :=
  C10_filter_totality [⟨some "S1", none, none, none⟩] "s" (by decide)
